import Mathlib

/-!
Verification development for the Rain-Guessr map viewer.

The definitions below are a shallow embedding of the room-file parser,
the world-placement calculator, the point hit-test and the wheel-zoom
view-rectangle arithmetic from `src/js/room-renderer.js` and
`src/js/moving_map_script.js`.  Text is modelled as `List Char`
(JavaScript strings), machine numbers as `Nat`/`Int` where the source
only ever produces integers, and the view-rectangle arithmetic over `ℚ`.
-/

namespace RainGuessr

/-! ## Text primitives (models of the JavaScript string operations used) -/

/-- Model of JavaScript `String.prototype.trim`: drop whitespace at both ends. -/
def trim (l : List Char) : List Char :=
  ((l.dropWhile Char.isWhitespace).reverse.dropWhile Char.isWhitespace).reverse

/-- Model of JavaScript `fileContent.split('\n')`: split at every newline,
keeping empty pieces (so `"" ↦ [""]` and a trailing newline yields a final
empty line), exactly as `String.prototype.split` does. -/
def splitLines : List Char → List (List Char)
  | [] => [[]]
  | c :: rest =>
    if c = '\n' then [] :: splitLines rest
    else
      match splitLines rest with
      | [] => [[c]]
      | h :: t => (c :: h) :: t

/-- Model of `trimmed.startsWith('Piece :')`. -/
def startsWithPiece (l : List Char) : Bool :=
  decide (l.take 7 = ['P', 'i', 'e', 'c', 'e', ' ', ':'])

/-- Numeric value of a digit string, as `Number` computes it on an
all-digit string (used only under the guards that ensure this shape). -/
def natOfDigits (l : List Char) : Nat :=
  l.foldl (fun acc c => acc * 10 + (c.toNat - 48)) 0

/-- Model of the regex test `/^\d+x\d+$/.test(trimmed)`:
one or more digits, the letter `x`, one or more digits, nothing else. -/
def sizeTest (l : List Char) : Bool :=
  let d1 := l.takeWhile Char.isDigit
  match l.dropWhile Char.isDigit with
  | 'x' :: r2 => !d1.isEmpty && !r2.isEmpty && r2.all Char.isDigit
  | _ => false

/-- Consume the optional leading minus of `-?`: the flag records whether
a minus was stripped. -/
def stripMinus (l : List Char) : Bool × List Char :=
  match l with
  | c :: r => if c = '-' then (true, r) else (false, l)
  | [] => (false, l)

/-- Matches `-?\d+` against the whole list. -/
def signedDigits (l : List Char) : Bool :=
  !(stripMinus l).2.isEmpty && (stripMinus l).2.all Char.isDigit

/-- Model of the regex test `/^-?\d+x-?\d+$/.test(trimmed)`. -/
def posTest (l : List Char) : Bool :=
  let l1 := (stripMinus l).2
  let d1 := l1.takeWhile Char.isDigit
  match l1.dropWhile Char.isDigit with
  | 'x' :: r2 => !d1.isEmpty && signedDigits r2
  | _ => false

/-- Model of `trimmed.split('x').map(Number)` on a line that passed
`sizeTest`: the two unsigned integers on either side of the `x`. -/
def sizeVals (l : List Char) : Nat × Nat :=
  let d1 := l.takeWhile Char.isDigit
  match l.dropWhile Char.isDigit with
  | _ :: r2 => (natOfDigits d1, natOfDigits r2)
  | [] => (natOfDigits d1, 0)

/-- Model of the global numeric-token extraction
`trimmed.match(...).map(Number)` with token pattern `-?\d+` on a line
that passed `posTest`: the two signed integers, sign attached to each. -/
def posVals (l : List Char) : Int × Int :=
  let p1 := stripMinus l
  let d1 := p1.2.takeWhile Char.isDigit
  match p1.2.dropWhile Char.isDigit with
  | _ :: r2 =>
    let p2 := stripMinus r2
    ((if p1.1 then -1 else 1) * (natOfDigits d1 : Int),
     (if p2.1 then -1 else 1) * (natOfDigits p2.2 : Int))
  | [] => ((if p1.1 then -1 else 1) * (natOfDigits d1 : Int), 0)

/-- The leading-character class of the tile-row rule, the regex
`/^[.#|+\-=HV\/]/` from `parseRoomFile`. -/
def tileChars : List Char := ['.', '#', '|', '+', '-', '=', 'H', 'V', '/']

/-- Model of `trimmed.match(/^[.#|+\-=HV\/]/)` being non-null. -/
def tileStart (l : List Char) : Bool :=
  match l with
  | c :: _ => tileChars.contains c
  | [] => false

/-- The string compared against at the end-marker rule,
`'end file : ' + roomData.fullName`.  When `fullName` was never
assigned, JavaScript concatenation renders it as `"undefined"`. -/
def endMarker : Option (List Char) → List Char
  | none => "end file : undefined".data
  | some s => "end file : ".data ++ s

/-! ## The room-file parser (`RoomRenderer.parseRoomFile`) -/

/-- Mutable locals of the scan in `parseRoomFile`. -/
structure ParseState where
  fullName : Option (List Char)
  width : Nat
  height : Nat
  position : Int × Int
  geometry : List (List Char)
  tileLines : List (List Char)
  geometryStarted : Bool
deriving Repr, DecidableEq

def initState : ParseState :=
  { fullName := none, width := 0, height := 0, position := (0, 0),
    geometry := [], tileLines := [], geometryStarted := false }

/-- One iteration of the `for (const line of lines)` loop of
`parseRoomFile`; the returned `Bool` is true when the `break` at the
end-marker rule fires. -/
def parseLine (s : ParseState) (line : List Char) : ParseState × Bool :=
  let trimmed := trim line
  if startsWithPiece trimmed then
    ({ s with fullName := some (trim (trimmed.drop 7)) }, false)
  else if sizeTest trimmed then
    ({ s with width := (sizeVals trimmed).1, height := (sizeVals trimmed).2 }, false)
  else if posTest trimmed then
    ({ s with position := posVals trimmed }, false)
  else if s.geometryStarted = false ∧ tileStart trimmed = true then
    ({ s with tileLines := s.tileLines ++ [line] }, false)
  else if trimmed.contains '(' = true ∧ trimmed.contains '|' = true then
    ({ s with geometry := s.geometry ++ [trimmed], geometryStarted := true }, false)
  else if trimmed = endMarker s.fullName then
    (s, true)
  else (s, false)

/-- The whole scan; the second component is the list of lines left
unprocessed when the end-marker `break` fires (empty when the scan runs
to end-of-file). -/
def parseLines : ParseState → List (List Char) → ParseState × List (List Char)
  | s, [] => (s, [])
  | s, l :: ls =>
    let r := parseLine s l
    if r.2 then (r.1, ls) else parseLines r.1 ls

/-- The record produced by `parseRoomFile`.  A record coming from the
parser never carries a `worldPos`; precompiled records may. -/
structure RoomData where
  name : List Char
  regionCode : List Char
  width : Nat
  height : Nat
  position : Int × Int
  tiles : List (List Char)
  geometry : List (List Char)
  fullName : Option (List Char)
  tileMap : List (List Char)
  worldPos : Option (Int × Int)
deriving Repr, DecidableEq

/-- `RoomRenderer.parseRoomFile(fileContent, regionCode, roomName)`. -/
def parseRoomFile (fileContent regionCode roomName : List Char) : RoomData :=
  let r := parseLines initState (splitLines fileContent)
  { name := roomName.map Char.toUpper
    regionCode := regionCode
    width := r.1.width
    height := r.1.height
    position := r.1.position
    tiles := []
    geometry := r.1.geometry
    fullName := r.1.fullName
    tileMap := r.1.tileLines
    worldPos := none }

/-! ## World placement (`RoomRenderer.renderRoomToSVG` and the renderer constants) -/

/-- `RoomRenderer.TILE_SIZE` (pixels per tile, fixed for the session). -/
def TILE_SIZE : Int := 15

/-- `RoomRenderer.TILE_TYPES`: the tile-code colour table. -/
def TILE_TYPES : List (Char × List Char) :=
  [('.', "#1a1a1a".data), ('#', "#444".data), ('|', "#666".data),
   ('-', "#666".data), ('+', "#888".data), ('=', "#666".data),
   ('/', "#555".data), ('H', "#ff6600".data)]

/-- One entry of `RoomRenderer.regionPositions` as built by
`loadRegionPositions`. -/
structure RegionPos where
  x : Int
  y : Int
  name : List Char
deriving Repr, DecidableEq

/-- The four numbers `renderRoomToSVG` writes on the emitted group:
world x/y of the placed rectangle and its pixel width/height. -/
structure Placement where
  x : Int
  y : Int
  width : Int
  height : Int
deriving Repr, DecidableEq

/-- `RoomRenderer.renderRoomToCanvas`: `null` when width or height is
falsy, otherwise a raster of `width*TILE_SIZE × height*TILE_SIZE` pixels
(only the dimensions matter here). -/
def renderRoomToCanvas (r : RoomData) : Option (Int × Int) :=
  if r.width = 0 ∨ r.height = 0 then none
  else some ((r.width : Int) * TILE_SIZE, (r.height : Int) * TILE_SIZE)

/-- `RoomRenderer.renderRoomToSVG`, reduced to the placement data it
emits: `none` models returning `null` and emitting nothing.
`usePrecompiled` is the `this.usePrecompiled` flag and `regionPositions`
the `this.regionPositions` lookup. -/
def renderRoomToSVG (usePrecompiled : Bool)
    (regionPositions : List Char → Option RegionPos) (r : RoomData) :
    Option Placement :=
  if r.width = 0 ∨ r.height = 0 then none
  else
    let world : Option (Int × Int) :=
      if usePrecompiled = true ∧ r.worldPos.isSome = true then r.worldPos
      else
        match regionPositions r.regionCode with
        | none => none
        | some regionPos =>
          some ((regionPos.x + r.position.1) * TILE_SIZE,
                (regionPos.y + r.position.2) * TILE_SIZE)
    match world with
    | none => none
    | some w =>
      match renderRoomToCanvas r with
      | none => none
      | some c => some { x := w.1, y := w.2, width := c.1, height := c.2 }

/-! ## Hit test (`RoomRenderer.getRoomAtPoint`) -/

/-- The attributes carried by one `.room-group` element, in document
(insertion) order inside the SVG group. -/
structure RoomGroupAttrs where
  dataRoom : List Char
  dataRegion : List Char
  posX : Int
  posY : Int
  width : Int
  height : Int
deriving Repr, DecidableEq

/-- The record `getRoomAtPoint` returns on a hit. -/
structure RoomInfo where
  name : List Char
  region : List Char
  x : Int
  y : Int
deriving Repr, DecidableEq

/-- `RoomRenderer.getRoomAtPoint(x, y, svgGroup)`: scan the placed room
groups in order, returning the first whose box contains the point. -/
def getRoomAtPoint (x y : Int) : List RoomGroupAttrs → Option RoomInfo
  | [] => none
  | r :: rs =>
    if r.posX ≤ x ∧ r.posY ≤ y ∧ x < r.posX + r.width ∧ y < r.posY + r.height then
      some { name := r.dataRoom, region := r.dataRegion, x := r.posX, y := r.posY }
    else getRoomAtPoint x y rs

/-! ## Wheel zoom (`moving_map_script.js`, wheel event handler) -/

/-- The SVG `viewBox` rectangle. -/
structure ViewBox where
  x : ℚ
  y : ℚ
  width : ℚ
  height : ℚ
deriving Repr, DecidableEq

/-- The cursor data entering one wheel event: mouse position relative to
the container and the container's bounding-rectangle extents. -/
structure MouseEnv where
  mouseX : ℚ
  mouseY : ℚ
  rectWidth : ℚ
  rectHeight : ℚ
deriving Repr, DecidableEq

/-- `Math.max(500, Math.min(50000, v))`, the extent clamp of the wheel
handler. -/
def clampExtent (v : ℚ) : ℚ := max 500 (min 50000 v)

/-- The world point under the cursor, as the handler computes it:
`viewBoxX + (mouseX / rect.width) * viewBoxWidth` (and the y analogue). -/
def anchorX (vb : ViewBox) (env : MouseEnv) : ℚ :=
  vb.x + env.mouseX / env.rectWidth * vb.width

def anchorY (vb : ViewBox) (env : MouseEnv) : ℚ :=
  vb.y + env.mouseY / env.rectHeight * vb.height

/-- The body of the wheel handler after the zoom factor has been chosen
from `deltaY`: clamp both extents, restore the aspect ratio by adjusting
the violating dimension, and reposition so the cursor-anchored world
point stays under the cursor. -/
def zoomStep (vb : ViewBox) (env : MouseEnv) (zoomFactor : ℚ) : ViewBox :=
  let worldX := anchorX vb env
  let worldY := anchorY vb env
  let newWidth := clampExtent (vb.width * zoomFactor)
  let newHeight := clampExtent (vb.height * zoomFactor)
  let aspectRatio := vb.width / vb.height
  let newAspect := newWidth / newHeight
  let finalWidth := if newAspect > aspectRatio then newWidth else newHeight * aspectRatio
  let finalHeight := if newAspect > aspectRatio then newWidth / aspectRatio else newHeight
  { x := worldX - env.mouseX / env.rectWidth * finalWidth
    y := worldY - env.mouseY / env.rectHeight * finalHeight
    width := finalWidth
    height := finalHeight }

/-- One complete wheel event: `zoomFactor = e.deltaY > 0 ? 1.2 : 0.8`. -/
def wheelStep (vb : ViewBox) (env : MouseEnv) (deltaY : ℚ) : ViewBox :=
  zoomStep vb env (if deltaY > 0 then 12/10 else 8/10)

/-! ## Statement vocabulary and concrete fixtures -/

/-- The text of a signed position line, `<optional minus><digits>x<optional
minus><digits>`, with the two digit groups and their signs explicit. -/
def mkPosLine (n1 : Bool) (d1 : List Char) (n2 : Bool) (d2 : List Char) : List Char :=
  (if n1 then ['-'] else []) ++ d1 ++ 'x' :: ((if n2 then ['-'] else []) ++ d2)

/-- The integer denoted by a digit group with an optional minus sign. -/
def intVal (neg : Bool) (d : List Char) : Int :=
  (if neg then -1 else 1) * (natOfDigits d : Int)

/-- A concrete parsed room, the `CC_A02` example of the repository
documentation (size `54x35`, local position `-749x-582`). -/
def demoRoom : RoomData :=
  parseRoomFile "Piece : CC_A02\n54x35\n-749x-582".data "CC".data "cc_a02".data

/-- A concrete region-position table holding only region `CC` at offset
`(-570, 897)`. -/
def demoRegs : List Char → Option RegionPos := fun c =>
  if c = "CC".data then some { x := -570, y := 897, name := "CC".data } else none

/-! ## Lemmas about single scan steps -/

lemma parseLine_size_stable (s : ParseState) (line : List Char)
    (h : sizeTest (trim line) = false) :
    ((parseLine s line).1).width = s.width ∧ ((parseLine s line).1).height = s.height := by
  simp only [parseLine]
  split_ifs <;> simp_all

lemma parseLine_position_stable (s : ParseState) (line : List Char)
    (h : posTest (trim line) = false) :
    ((parseLine s line).1).position = s.position := by
  simp only [parseLine]
  split_ifs <;> simp_all

lemma parseLine_fullName_stable (s : ParseState) (line : List Char)
    (h : startsWithPiece (trim line) = false) :
    ((parseLine s line).1).fullName = s.fullName := by
  simp only [parseLine]
  split_ifs <;> simp_all

lemma parseLine_tileLines_stable (s : ParseState) (line : List Char)
    (h : tileStart (trim line) = false) :
    ((parseLine s line).1).tileLines = s.tileLines := by
  simp only [parseLine]
  split_ifs <;> simp_all

lemma parseLine_geometry_stable (s : ParseState) (line : List Char)
    (h : ¬((trim line).contains '(' = true ∧ (trim line).contains '|' = true)) :
    ((parseLine s line).1).geometry = s.geometry := by
  simp only [parseLine]
  split_ifs <;> simp_all

lemma parseLine_flag_frozen (s : ParseState) (line : List Char)
    (h : s.geometryStarted = true) :
    ((parseLine s line).1).tileLines = s.tileLines ∧
    ((parseLine s line).1).geometryStarted = true := by
  simp only [parseLine]
  split_ifs <;> simp_all

lemma parseLine_no_break (s : ParseState) (line : List Char)
    (h : trim line ≠ endMarker s.fullName) :
    (parseLine s line).2 = false := by
  simp only [parseLine]
  split_ifs <;> simp_all

/-! ## Lemmas about the whole scan -/

lemma parseLines_size_stable (lines : List (List Char)) : ∀ s : ParseState,
    (∀ l ∈ lines, sizeTest (trim l) = false) →
    ((parseLines s lines).1).width = s.width ∧
    ((parseLines s lines).1).height = s.height := by
  induction lines with
  | nil => intro s _; exact ⟨rfl, rfl⟩
  | cons l ls ih =>
    intro s h
    have hl := parseLine_size_stable s l (h l (by simp))
    have hrest : ∀ l ∈ ls, sizeTest (trim l) = false := fun x hx => h x (by simp [hx])
    simp only [parseLines]
    split
    · exact hl
    · have := ih (parseLine s l).1 hrest
      omega

lemma parseLines_position_stable (lines : List (List Char)) : ∀ s : ParseState,
    (∀ l ∈ lines, posTest (trim l) = false) →
    ((parseLines s lines).1).position = s.position := by
  induction lines with
  | nil => intro s _; rfl
  | cons l ls ih =>
    intro s h
    have hl := parseLine_position_stable s l (h l (by simp))
    simp only [parseLines]
    split
    · exact hl
    · rw [ih (parseLine s l).1 (fun x hx => h x (by simp [hx])), hl]

lemma parseLines_fullName_stable (lines : List (List Char)) : ∀ s : ParseState,
    (∀ l ∈ lines, startsWithPiece (trim l) = false) →
    ((parseLines s lines).1).fullName = s.fullName := by
  induction lines with
  | nil => intro s _; rfl
  | cons l ls ih =>
    intro s h
    have hl := parseLine_fullName_stable s l (h l (by simp))
    simp only [parseLines]
    split
    · exact hl
    · rw [ih (parseLine s l).1 (fun x hx => h x (by simp [hx])), hl]

lemma parseLines_tileLines_stable (lines : List (List Char)) : ∀ s : ParseState,
    (∀ l ∈ lines, tileStart (trim l) = false) →
    ((parseLines s lines).1).tileLines = s.tileLines := by
  induction lines with
  | nil => intro s _; rfl
  | cons l ls ih =>
    intro s h
    have hl := parseLine_tileLines_stable s l (h l (by simp))
    simp only [parseLines]
    split
    · exact hl
    · rw [ih (parseLine s l).1 (fun x hx => h x (by simp [hx])), hl]

lemma parseLines_geometry_stable (lines : List (List Char)) : ∀ s : ParseState,
    (∀ l ∈ lines, ¬((trim l).contains '(' = true ∧ (trim l).contains '|' = true)) →
    ((parseLines s lines).1).geometry = s.geometry := by
  induction lines with
  | nil => intro s _; rfl
  | cons l ls ih =>
    intro s h
    have hl := parseLine_geometry_stable s l (h l (by simp))
    simp only [parseLines]
    split
    · exact hl
    · rw [ih (parseLine s l).1 (fun x hx => h x (by simp [hx])), hl]

lemma parseLines_flag_frozen (lines : List (List Char)) : ∀ s : ParseState,
    s.geometryStarted = true →
    ((parseLines s lines).1).tileLines = s.tileLines := by
  induction lines with
  | nil => intro s _; rfl
  | cons l ls ih =>
    intro s h
    have hl := parseLine_flag_frozen s l h
    simp only [parseLines]
    split
    · exact hl.1
    · rw [ih (parseLine s l).1 hl.2, hl.1]

lemma parseLines_no_piece_scans_all (lines : List (List Char)) : ∀ s : ParseState,
    s.fullName = none →
    (∀ l ∈ lines, startsWithPiece (trim l) = false) →
    (∀ l ∈ lines, trim l ≠ "end file : undefined".data) →
    (parseLines s lines).2 = [] ∧ ((parseLines s lines).1).fullName = none := by
  induction lines with
  | nil => intro s hfn _ _; exact ⟨rfl, hfn⟩
  | cons l ls ih =>
    intro s hfn hp he
    have hb : (parseLine s l).2 = false := by
      refine parseLine_no_break s l ?_
      rw [hfn]
      exact he l (by simp)
    have hfn2 : ((parseLine s l).1).fullName = none := by
      rw [parseLine_fullName_stable s l (hp l (by simp))]; exact hfn
    simp only [parseLines, hb]
    exact ih (parseLine s l).1 hfn2 (fun x hx => hp x (by simp [hx]))
      (fun x hx => he x (by simp [hx]))

/-! ## Lemmas about digit spans and position lines -/

lemma takeWhile_digits_append (d r : List Char) (hd : d.all Char.isDigit = true)
    (hr : ∀ c, r.head? = some c → Char.isDigit c = false) :
    (d ++ r).takeWhile Char.isDigit = d ∧ (d ++ r).dropWhile Char.isDigit = r := by
  induction d with
  | nil =>
    cases r with
    | nil => exact ⟨rfl, rfl⟩
    | cons a r' =>
      have := hr a rfl
      simp [List.takeWhile_cons, List.dropWhile_cons, this]
  | cons a d' ih =>
    simp only [List.all_cons, Bool.and_eq_true] at hd
    have h2 := ih hd.2
    simp [List.cons_append, List.takeWhile_cons, List.dropWhile_cons, hd.1, h2.1, h2.2]

lemma span_digits_x (d r : List Char) (hd : d.all Char.isDigit = true) :
    (d ++ 'x' :: r).takeWhile Char.isDigit = d ∧
    (d ++ 'x' :: r).dropWhile Char.isDigit = 'x' :: r := by
  refine takeWhile_digits_append d ('x' :: r) hd ?_
  intro c hc
  simp only [List.head?_cons, Option.some.injEq] at hc
  subst hc
  decide

lemma stripMinus_minus (r : List Char) : stripMinus ('-' :: r) = (true, r) := by
  simp [stripMinus]

lemma stripMinus_ne (c : Char) (r : List Char) (h : c ≠ '-') :
    stripMinus (c :: r) = (false, c :: r) := by
  simp [stripMinus, h]

lemma startsWithPiece_head (c : Char) (r : List Char) (h : c ≠ 'P') :
    startsWithPiece (c :: r) = false := by
  simp [startsWithPiece, List.take_succ_cons, h]

lemma digit_ne_minus (c : Char) (h : Char.isDigit c = true) : c ≠ '-' := by
  intro e; subst e; exact absurd h (by decide)

lemma digit_ne_P (c : Char) (h : Char.isDigit c = true) : c ≠ 'P' := by
  intro e; subst e; exact absurd h (by decide)

lemma mkPosLine_eval (n1 n2 : Bool) (c1 c2 : Char) (d1' d2' : List Char)
    (ha1 : (c1 :: d1').all Char.isDigit = true)
    (ha2 : (c2 :: d2').all Char.isDigit = true) :
    startsWithPiece (mkPosLine n1 (c1 :: d1') n2 (c2 :: d2')) = false ∧
    posTest (mkPosLine n1 (c1 :: d1') n2 (c2 :: d2')) = true ∧
    posVals (mkPosLine n1 (c1 :: d1') n2 (c2 :: d2')) =
      (intVal n1 (c1 :: d1'), intVal n2 (c2 :: d2')) ∧
    ((n1 = true ∨ n2 = true) →
      sizeTest (mkPosLine n1 (c1 :: d1') n2 (c2 :: d2')) = false) := by
  have ha1' := ha1
  have ha2' := ha2
  simp only [List.all_cons, Bool.and_eq_true] at ha1' ha2'
  have hc1m : c1 ≠ '-' := digit_ne_minus c1 ha1'.1
  have hc2m : c2 ≠ '-' := digit_ne_minus c2 ha2'.1
  have hc1P : c1 ≠ 'P' := digit_ne_P c1 ha1'.1
  have hsp1 := span_digits_x (c1 :: d1') ('-' :: c2 :: d2') ha1
  have hsp2 := span_digits_x (c1 :: d1') (c2 :: d2') ha1
  simp only [List.cons_append] at hsp1 hsp2
  cases n1 <;> cases n2 <;>
    simp_all [mkPosLine, posTest, posVals, sizeTest, signedDigits, intVal,
      startsWithPiece_head, stripMinus_minus, stripMinus_ne c1 _ hc1m,
      stripMinus_ne c2 _ hc2m, startsWithPiece_head c1 _ hc1P,
      startsWithPiece_head '-' _ (by decide), List.cons_append,
      List.takeWhile_cons, List.dropWhile_cons]

/-! ## Claim C2 -/

/-- C2 (counterexample): `3x4` is a valid signed position line in the
claim's sense (two decimal integers with optional minus, joined by `x`,
both non-negative here), yet parsing a file consisting of it leaves
`localPosition` at `(0, 0)` — the stricter unsigned size rule consumes
the line first, setting `width`/`height` instead. -/
theorem c2_counterexample :
    posTest (trim "3x4".data) = true ∧
    (parseRoomFile "3x4".data "CC".data "r".data).position = (0, 0) ∧
    (parseRoomFile "3x4".data "CC".data "r".data).position ≠ (3, 4) ∧
    (parseRoomFile "3x4".data "CC".data "r".data).width = 3 ∧
    (parseRoomFile "3x4".data "CC".data "r".data).height = 4 := by decide

/-- C2 (amended): a valid signed position line in which at least one
coordinate carries a leading minus is consumed by the position rule, and
processing it sets `localPosition` to exactly the two denoted integers
(so a file whose last such line is this one parses to them); a signed
position line with both coordinates unsigned is consumed by the size
rule instead. -/
theorem c2_signed_position_exact (s : ParseState) (line : List Char)
    (n1 n2 : Bool) (d1 d2 : List Char) (h1 : d1 ≠ []) (h2 : d2 ≠ [])
    (ha1 : d1.all Char.isDigit = true) (ha2 : d2.all Char.isDigit = true)
    (hneg : n1 = true ∨ n2 = true)
    (htrim : trim line = mkPosLine n1 d1 n2 d2) :
    (parseLine s line).1.position = (intVal n1 d1, intVal n2 d2) ∧
    (parseLine s line).2 = false := by
  obtain ⟨c1, d1', rfl⟩ := List.exists_cons_of_ne_nil h1
  obtain ⟨c2, d2', rfl⟩ := List.exists_cons_of_ne_nil h2
  obtain ⟨hpiece, hpos, hvals, hsize⟩ := mkPosLine_eval n1 n2 c1 c2 d1' d2' ha1 ha2
  simp only [parseLine, htrim, hpiece, hsize hneg, hpos, hvals, Bool.false_eq_true,
    if_false, if_true]
  simp

/-- Witness for C2 at the concrete line `" -7x8 "` (whitespace trimmed,
first coordinate negative). -/
theorem c2_witness :
    (parseLine initState " -7x8 ".data).1.position =
      (intVal true ['7'], intVal false ['8']) ∧
    (parseLine initState " -7x8 ".data).2 = false :=
  c2_signed_position_exact initState " -7x8 ".data true false ['7'] ['8']
    (by decide) (by decide) (by decide) (by decide) (Or.inl rfl) (by decide)

/-! ## Claim C9 -/

/-- C9 (counterexample): in a file with no `Piece :` line, the end-marker
rule can still match — JavaScript renders the unassigned `fullName` as
the text `undefined`, so the literal line `end file : undefined`
terminates the scan early, leaving the following size line `5x5`
unprocessed (width stays 0). -/
theorem c9_counterexample :
    startsWithPiece (trim "end file : undefined".data) = false ∧
    startsWithPiece (trim "5x5".data) = false ∧
    (parseLines initState (splitLines "end file : undefined\n5x5".data)).2 =
      ["5x5".data] ∧
    (parseRoomFile "end file : undefined\n5x5".data "CC".data "r".data).width = 0 := by
  decide

/-- C9 (amended): for every file with no `Piece :` line and no line whose
trimmed content is the literal `end file : undefined`, the end-marker
rule matches no line: the scan processes every line to end-of-file and
`fullName` stays absent. -/
theorem c9_no_piece_scans_to_eof (s : ParseState) (lines : List (List Char))
    (hfn : s.fullName = none)
    (hp : ∀ l ∈ lines, startsWithPiece (trim l) = false)
    (he : ∀ l ∈ lines, trim l ≠ "end file : undefined".data) :
    (parseLines s lines).2 = [] ∧ ((parseLines s lines).1).fullName = none :=
  parseLines_no_piece_scans_all lines s hfn hp he

/-- Witness for C9 on a concrete two-line file with no `Piece :` line. -/
theorem c9_witness :
    (parseLines initState ["a".data, "b".data]).2 = [] ∧
    ((parseLines initState ["a".data, "b".data]).1).fullName = none :=
  c9_no_piece_scans_to_eof initState ["a".data, "b".data] rfl
    (by decide) (by decide)

/-! ## Claim C3 -/

/-- C3: the room-file parser is total by construction — it returns a
`RoomData` on every input — and each field that no line of the file can
assign is left at its default: `width = 0`, `height = 0`,
`position = (0, 0)`, `fullName` absent, empty tile grid, empty geometry
list. -/
theorem c3_parser_total_defaults : ∀ (file rc rn : List Char),
    ((∀ l ∈ splitLines file, sizeTest (trim l) = false) →
      (parseRoomFile file rc rn).width = 0 ∧ (parseRoomFile file rc rn).height = 0) ∧
    ((∀ l ∈ splitLines file, posTest (trim l) = false) →
      (parseRoomFile file rc rn).position = (0, 0)) ∧
    ((∀ l ∈ splitLines file, startsWithPiece (trim l) = false) →
      (parseRoomFile file rc rn).fullName = none) ∧
    ((∀ l ∈ splitLines file, tileStart (trim l) = false) →
      (parseRoomFile file rc rn).tileMap = []) ∧
    ((∀ l ∈ splitLines file, ¬((trim l).contains '(' = true ∧ (trim l).contains '|' = true)) →
      (parseRoomFile file rc rn).geometry = []) := by
  intro file rc rn
  refine ⟨fun h => ?_, fun h => ?_, fun h => ?_, fun h => ?_, fun h => ?_⟩
  · simpa [parseRoomFile, initState] using
      parseLines_size_stable (splitLines file) initState h
  · simpa [parseRoomFile, initState] using
      parseLines_position_stable (splitLines file) initState h
  · simpa [parseRoomFile, initState] using
      parseLines_fullName_stable (splitLines file) initState h
  · simpa [parseRoomFile, initState] using
      parseLines_tileLines_stable (splitLines file) initState h
  · simpa [parseRoomFile, initState] using
      parseLines_geometry_stable (splitLines file) initState h

/-- Witness for C3 on a file with no recognizable line at all. -/
theorem c3_witness :
    (parseRoomFile "hello\nworld !".data "CC".data "r".data).width = 0 ∧
    (parseRoomFile "hello\nworld !".data "CC".data "r".data).position = (0, 0) ∧
    (parseRoomFile "hello\nworld !".data "CC".data "r".data).fullName = none ∧
    (parseRoomFile "hello\nworld !".data "CC".data "r".data).tileMap = [] ∧
    (parseRoomFile "hello\nworld !".data "CC".data "r".data).geometry = [] := by
  have h := c3_parser_total_defaults "hello\nworld !".data "CC".data "r".data
  exact ⟨(h.1 (by decide)).1, h.2.1 (by decide), h.2.2.1 (by decide),
         h.2.2.2.1 (by decide), h.2.2.2.2 (by decide)⟩

/-! ## Claim C4 -/

/-- C4 (counterexample): the line `|(` contains both `(` and `|`, yet the
line after it is still appended to the tile grid — a line whose trimmed
first character is a tile code (here `|`) is consumed by the tile-row
rule, so it never sets the geometry flag. -/
theorem c4_counterexample :
    ("|(".data.contains '(' = true ∧ "|(".data.contains '|' = true) ∧
    (parseRoomFile "|(\n#b".data "CC".data "r".data).tileMap =
      ["|(".data, "#b".data] := by decide

/-- C4 (amended): once a line has actually been appended to the geometry
list — which sets the `geometryStarted` flag — no subsequent line is ever
appended to the tile grid; a line containing both `(` and `|` does so
only when no earlier rule consumed it. -/
theorem c4_geometry_suppresses_tiles :
    (∀ (s : ParseState) (line : List Char),
      (parseLine s line).1.geometry ≠ s.geometry →
      (parseLine s line).1.geometryStarted = true) ∧
    (∀ (s : ParseState) (lines : List (List Char)), s.geometryStarted = true →
      (parseLines s lines).1.tileLines = s.tileLines) := by
  constructor
  · intro s line h
    revert h
    simp only [parseLine]
    split_ifs <;> simp_all
  · exact fun s lines h => parseLines_flag_frozen lines s h

/-- Witness for C4 at concrete inputs. -/
theorem c4_witness :
    (parseLine initState "(1|2)".data).1.geometryStarted = true ∧
    (parseLines { initState with geometryStarted := true } ["#a".data]).1.tileLines = [] :=
  ⟨c4_geometry_suppresses_tiles.1 initState "(1|2)".data (by decide),
   c4_geometry_suppresses_tiles.2 { initState with geometryStarted := true }
     ["#a".data] rfl⟩

/-! ## Claim C10 -/

/-- C10: a line is appended (untrimmed) to the tile grid exactly when
geometry collection has not started, none of the earlier rules (Piece,
size, position) matched, and the first character of the trimmed line is
one of `. # | + - = H V /`; that character class contains `V`, which has
no entry in the tile colour table, and the test being on the trimmed
line admits tile rows with leading whitespace. -/
theorem c10_tile_row_classification :
    (∀ (s : ParseState) (line : List Char),
      (parseLine s line).1.tileLines = s.tileLines ++ [line] ↔
        (s.geometryStarted = false ∧ startsWithPiece (trim line) = false ∧
         sizeTest (trim line) = false ∧ posTest (trim line) = false ∧
         tileStart (trim line) = true)) ∧
    tileChars.contains 'V' = true ∧
    List.lookup 'V' TILE_TYPES = none ∧
    tileStart (trim "   #ab".data) = true := by
  refine ⟨fun s line => ?_, by decide, by decide, by decide⟩
  simp only [parseLine]
  split_ifs <;> simp_all

/-! ## Claim C1 -/

/-- C1: for every room record with positive width and height whose
region has a known position (and no precompiled world position, as is
the case for every parsed record), the emitted placement is
`worldX = (regionPos.x + position.x) * TILE_SIZE`,
`worldY = (regionPos.y + position.y) * TILE_SIZE`, with pixel size
`width * TILE_SIZE × height * TILE_SIZE`, for the single fixed constant
`TILE_SIZE = 15`. -/
theorem c1_world_placement (up : Bool) (regs : List Char → Option RegionPos)
    (r : RoomData) (rp : RegionPos)
    (hreg : regs r.regionCode = some rp) (hwp : r.worldPos = none)
    (hw : 0 < r.width) (hh : 0 < r.height) :
    renderRoomToSVG up regs r =
      some { x := (rp.x + r.position.1) * TILE_SIZE,
             y := (rp.y + r.position.2) * TILE_SIZE,
             width := (r.width : Int) * TILE_SIZE,
             height := (r.height : Int) * TILE_SIZE } ∧
    TILE_SIZE = 15 := by
  have hne : ¬(r.width = 0 ∨ r.height = 0) := by omega
  refine ⟨?_, rfl⟩
  simp [renderRoomToSVG, renderRoomToCanvas, hwp, hreg, hne]

/-- Witness for C1: the `CC_A02` fixture placed with region `CC` at
`(-570, 897)`. -/
theorem c1_witness :
    renderRoomToSVG false demoRegs demoRoom =
      some { x := -19785, y := 4725, width := 810, height := 525 } ∧
    TILE_SIZE = 15 := by
  have h := c1_world_placement false demoRegs demoRoom
    { x := -570, y := 897, name := "CC".data } (by decide) rfl (by decide) (by decide)
  refine ⟨?_, h.2⟩
  rw [h.1]
  decide

/-! ## Claim C5 -/

lemma getRoomAtPoint_eq_find (x y : Int) (rooms : List RoomGroupAttrs) :
    getRoomAtPoint x y rooms =
      (rooms.find? (fun r =>
        decide (r.posX ≤ x ∧ x < r.posX + r.width ∧
                r.posY ≤ y ∧ y < r.posY + r.height))).map
        (fun r => { name := r.dataRoom, region := r.dataRegion,
                    x := r.posX, y := r.posY }) := by
  induction rooms with
  | nil => rfl
  | cons r rs ih =>
    by_cases h : r.posX ≤ x ∧ r.posY ≤ y ∧ x < r.posX + r.width ∧ y < r.posY + r.height
    · rw [getRoomAtPoint, if_pos h,
        List.find?_cons_of_pos _ (by simp only [decide_eq_true_eq]; tauto),
        Option.map_some']
    · rw [getRoomAtPoint, if_neg h,
        List.find?_cons_of_neg _ (by simp only [decide_eq_true_eq]; tauto), ih]

/-- C5: the point query returns exactly the first room, in insertion
order, whose half-open box `[posX, posX+width) × [posY, posY+height)`
contains the point, and `none` exactly when no placed room's box does. -/
theorem c5_hit_first_in_order (x y : Int) (rooms : List RoomGroupAttrs) :
    getRoomAtPoint x y rooms =
      (rooms.find? (fun r =>
        decide (r.posX ≤ x ∧ x < r.posX + r.width ∧
                r.posY ≤ y ∧ y < r.posY + r.height))).map
        (fun r => { name := r.dataRoom, region := r.dataRegion,
                    x := r.posX, y := r.posY }) ∧
    (getRoomAtPoint x y rooms = none ↔
      ∀ r ∈ rooms, ¬(r.posX ≤ x ∧ x < r.posX + r.width ∧
                     r.posY ≤ y ∧ y < r.posY + r.height)) := by
  refine ⟨getRoomAtPoint_eq_find x y rooms, ?_⟩
  rw [getRoomAtPoint_eq_find]
  simp [List.find?_eq_none]

/-! ## Claim C6 -/

/-- C6: for a record with no precompiled world position (as produced by
the parser), placement yields `none` — nothing is emitted — exactly when
the region position is unknown or width or height is 0 (the parser only
produces non-negative dimensions, so 0 is the only non-positive value);
the check is per-room and cannot affect any other room. -/
theorem c6_no_placement_iff (up : Bool) (regs : List Char → Option RegionPos)
    (r : RoomData) (hwp : r.worldPos = none) :
    renderRoomToSVG up regs r = none ↔
      regs r.regionCode = none ∨ r.width = 0 ∨ r.height = 0 := by
  by_cases h : r.width = 0 ∨ r.height = 0
  · simp [renderRoomToSVG, h]
  · cases hr : regs r.regionCode with
    | none => simp [renderRoomToSVG, renderRoomToCanvas, hwp, hr, h]
    | some rp => simp [renderRoomToSVG, renderRoomToCanvas, hwp, hr, h]

/-- Witness for C6: the fixture room against an empty region table. -/
theorem c6_witness :
    renderRoomToSVG false (fun _ => none) demoRoom = none ↔
      ((fun _ => none : List Char → Option RegionPos) demoRoom.regionCode = none ∨
       demoRoom.width = 0 ∨ demoRoom.height = 0) :=
  c6_no_placement_iff false (fun _ => none) demoRoom rfl

/-! ## Lemmas about the wheel zoom -/

lemma clampExtent_bounds (v : ℚ) : 500 ≤ clampExtent v ∧ clampExtent v ≤ 50000 := by
  unfold clampExtent
  exact ⟨le_max_left _ _, max_le (by norm_num) (min_le_left _ _)⟩

lemma clampExtent_of_mem (v : ℚ) (h1 : 500 ≤ v) (h2 : v ≤ 50000) :
    clampExtent v = v := by
  unfold clampExtent
  rw [min_eq_right h2, max_eq_right h1]

lemma anchor_preserved (vb : ViewBox) (env : MouseEnv) (f : ℚ) :
    anchorX (zoomStep vb env f) env = anchorX vb env ∧
    anchorY (zoomStep vb env f) env = anchorY vb env := by
  constructor <;> (simp only [zoomStep, anchorX, anchorY]; ring)

lemma zoomStep_noclamp (vb : ViewBox) (env : MouseEnv) (f : ℚ)
    (hw : 0 < vb.width) (hh : 0 < vb.height)
    (h1 : 500 ≤ vb.width * f) (h2 : vb.width * f ≤ 50000)
    (h3 : 500 ≤ vb.height * f) (h4 : vb.height * f ≤ 50000) :
    zoomStep vb env f =
      { x := vb.x + env.mouseX / env.rectWidth * vb.width -
             env.mouseX / env.rectWidth * (vb.width * f),
        y := vb.y + env.mouseY / env.rectHeight * vb.height -
             env.mouseY / env.rectHeight * (vb.height * f),
        width := vb.width * f,
        height := vb.height * f } := by
  have hf : 0 < f := by nlinarith
  have hfe : f ≠ 0 := ne_of_gt hf
  have hhe : vb.height ≠ 0 := ne_of_gt hh
  simp only [zoomStep, anchorX, anchorY, clampExtent_of_mem _ h1 h2,
    clampExtent_of_mem _ h3 h4]
  have hasp : vb.width * f / (vb.height * f) = vb.width / vb.height :=
    mul_div_mul_right _ _ hfe
  rw [hasp]
  have hc : ¬(vb.width / vb.height > vb.width / vb.height) := lt_irrefl _
  have hwf : vb.height * f * (vb.width / vb.height) = vb.width * f := by
    field_simp [hhe]
    ring
  rw [if_neg hc, if_neg hc, hwf]

/-! ## Claim C7 -/

/-- C7 (counterexample): the wheel handler's two factors are 1.2 and
0.8, which are not inverse to each other — one wheel-in step followed by
one wheel-out step at the same cursor turns a 10000-wide view rectangle
into a 9600-wide one, a 4% shrink far beyond rounding tolerance. -/
theorem c7_counterexample :
    (wheelStep
      (wheelStep { x := 0, y := 0, width := 10000, height := 10000 }
        { mouseX := 0, mouseY := 0, rectWidth := 1, rectHeight := 1 } (-1))
      { mouseX := 0, mouseY := 0, rectWidth := 1, rectHeight := 1 } 1).width = 9600 ∧
    ((9600 : ℚ) ≠ 10000) := by
  constructor
  · norm_num [wheelStep, zoomStep, anchorX, anchorY, clampExtent, min_def, max_def]
  · norm_num

/-- C7 (amended): a zoom step by factor `f` followed by a zoom step by
the exact inverse factor `1/f` at the same cursor restores the view
rectangle exactly — all four components, not just the extents — provided
no clamping binds in either step; the cursor-anchored world point is
held fixed by every zoom step. -/
theorem c7_roundtrip (vb : ViewBox) (env : MouseEnv) (f : ℚ)
    (hw : 0 < vb.width) (hh : 0 < vb.height)
    (hw1 : 500 ≤ vb.width) (hw2 : vb.width ≤ 50000)
    (hh1 : 500 ≤ vb.height) (hh2 : vb.height ≤ 50000)
    (hwf1 : 500 ≤ vb.width * f) (hwf2 : vb.width * f ≤ 50000)
    (hhf1 : 500 ≤ vb.height * f) (hhf2 : vb.height * f ≤ 50000) :
    zoomStep (zoomStep vb env f) env (1 / f) = vb ∧
    anchorX (zoomStep vb env f) env = anchorX vb env ∧
    anchorY (zoomStep vb env f) env = anchorY vb env := by
  obtain ⟨vx, vy, vw, vh⟩ := vb
  have hf : 0 < f := by nlinarith
  have hfe : f ≠ 0 := ne_of_gt hf
  refine ⟨?_, (anchor_preserved _ env f).1, (anchor_preserved _ env f).2⟩
  rw [zoomStep_noclamp _ env f hw hh hwf1 hwf2 hhf1 hhf2]
  have e1 : vw * f * (1 / f) = vw := by field_simp
  have e2 : vh * f * (1 / f) = vh := by field_simp
  rw [zoomStep_noclamp _ env (1 / f) (mul_pos hw hf) (mul_pos hh hf)
    (by rw [e1]; exact hw1) (by rw [e1]; exact hw2)
    (by rw [e2]; exact hh1) (by rw [e2]; exact hh2)]
  dsimp only
  rw [ViewBox.mk.injEq]
  refine ⟨?_, ?_, e1, e2⟩
  · rw [e1]; ring
  · rw [e2]; ring

/-- Witness for C7 with factor 2 on a 1000×1000 rectangle. -/
theorem c7_witness :
    zoomStep
      (zoomStep { x := 0, y := 0, width := 1000, height := 1000 }
        { mouseX := 0, mouseY := 0, rectWidth := 1, rectHeight := 1 } 2)
      { mouseX := 0, mouseY := 0, rectWidth := 1, rectHeight := 1 } (1 / 2) =
      { x := 0, y := 0, width := 1000, height := 1000 } ∧
    anchorX
      (zoomStep { x := 0, y := 0, width := 1000, height := 1000 }
        { mouseX := 0, mouseY := 0, rectWidth := 1, rectHeight := 1 } 2)
      { mouseX := 0, mouseY := 0, rectWidth := 1, rectHeight := 1 } =
      anchorX { x := 0, y := 0, width := 1000, height := 1000 }
        { mouseX := 0, mouseY := 0, rectWidth := 1, rectHeight := 1 } ∧
    anchorY
      (zoomStep { x := 0, y := 0, width := 1000, height := 1000 }
        { mouseX := 0, mouseY := 0, rectWidth := 1, rectHeight := 1 } 2)
      { mouseX := 0, mouseY := 0, rectWidth := 1, rectHeight := 1 } =
      anchorY { x := 0, y := 0, width := 1000, height := 1000 }
        { mouseX := 0, mouseY := 0, rectWidth := 1, rectHeight := 1 } :=
  c7_roundtrip { x := 0, y := 0, width := 1000, height := 1000 }
    { mouseX := 0, mouseY := 0, rectWidth := 1, rectHeight := 1 } 2
    (by norm_num) (by norm_num) (by norm_num) (by norm_num) (by norm_num)
    (by norm_num) (by norm_num) (by norm_num) (by norm_num) (by norm_num)

/-! ## Claim C8 -/

/-- C8 (counterexample): zooming out on a 50000×25000 rectangle clamps
the width to 50000 but the aspect re-adjustment then rescales it to
60000, outside the configured `[500, 50000]` range. -/
theorem c8_counterexample :
    (wheelStep { x := 0, y := 0, width := 50000, height := 25000 }
      { mouseX := 0, mouseY := 0, rectWidth := 1, rectHeight := 1 } 1).width = 60000 ∧
    ¬((wheelStep { x := 0, y := 0, width := 50000, height := 25000 }
      { mouseX := 0, mouseY := 0, rectWidth := 1, rectHeight := 1 } 1).width ≤ 50000) := by
  constructor <;>
    norm_num [wheelStep, zoomStep, anchorX, anchorY, clampExtent, min_def, max_def]

lemma zoomStep_ratio (vb : ViewBox) (env : MouseEnv) (f : ℚ) :
    (zoomStep vb env f).width / (zoomStep vb env f).height = vb.width / vb.height ∧
    ((500 ≤ (zoomStep vb env f).width ∧ (zoomStep vb env f).width ≤ 50000) ∨
     (500 ≤ (zoomStep vb env f).height ∧ (zoomStep vb env f).height ≤ 50000)) := by
  obtain ⟨hb1, hb2⟩ := clampExtent_bounds (vb.width * f)
  obtain ⟨hb3, hb4⟩ := clampExtent_bounds (vb.height * f)
  have hWpos : (0 : ℚ) < clampExtent (vb.width * f) :=
    lt_of_lt_of_le (by norm_num) hb1
  have hHpos : (0 : ℚ) < clampExtent (vb.height * f) :=
    lt_of_lt_of_le (by norm_num) hb3
  simp only [zoomStep]
  split_ifs with hc
  · refine ⟨?_, Or.inl ⟨hb1, hb2⟩⟩
    rw [div_div_eq_mul_div, mul_comm, mul_div_assoc, div_self (ne_of_gt hWpos),
      mul_one]
  · refine ⟨?_, Or.inr ⟨hb3, hb4⟩⟩
    rw [mul_comm, mul_div_assoc, div_self (ne_of_gt hHpos), mul_one]

/-- C8 (amended): after every wheel zoom, the aspect ratio is preserved
exactly, and the dimension the handler did not re-adjust lies within the
configured `[500, 50000]` range; the re-adjusted dimension can leave the
range (see the counterexample), so only one of the two clamps is
guaranteed. -/
theorem c8_clamp_and_aspect (vb : ViewBox) (env : MouseEnv) (deltaY : ℚ) :
    (wheelStep vb env deltaY).width / (wheelStep vb env deltaY).height =
      vb.width / vb.height ∧
    ((500 ≤ (wheelStep vb env deltaY).width ∧
      (wheelStep vb env deltaY).width ≤ 50000) ∨
     (500 ≤ (wheelStep vb env deltaY).height ∧
      (wheelStep vb env deltaY).height ≤ 50000)) :=
  zoomStep_ratio vb env _

end RainGuessr
